import Mathlib

/-!
# A shallow embedding of the `syncd` transfer protocol

This file models, in Lean, the receiver (`src/bin/transfer-handler.rs`), the
chunk store (`src/store.rs`) and the sender's check-and-transfer driver
(`src/bin/transfer.rs`) of the `syncd` repository, and proves properties of
the model.

Modelling conventions:
* byte strings are `List Nat`;
* filesystem paths are a flag (absolute or not) plus a component list;
  `PathBuf::join` is `joinPath` (an absolute argument replaces the receiver);
* the receiver's filesystem is an association list of regular files plus a
  list of directories;
* SHA-256 (`sha2::Sha256`), signature serialization
  (`fast_rsync::Signature`), delta computation (`fast_rsync::diff`) and
  unlimited delta application are external library functions; they are taken
  as parameters (`hash`, `sigOf`, `diffFn`, `applyDelta`), so every theorem
  quantifies over them; `fast_rsync::apply_limited` is `applyLimited`, which
  fails when the application fails or the output exceeds the limit;
* `io::Result` and `anyhow::Result` are `Except String`; handlers cannot
  suffer spurious I/O failures in the model (the disk model is total);
* the `BufWriter` of a store `FileEntry` reaches the disk at flush time
  (`Store.remove_file`), matching the bytes observable after the handler
  returns; the bytes fed to the running hasher are exactly the bytes written.
-/

abbrev Bytes := List Nat

/-- A filesystem path: `absolute` mirrors `Path::is_absolute`, `comps` the
lexical components (`..` components are kept as literal strings, as
`PathBuf::join` does not normalize). -/
structure FsPath where
  absolute : Bool
  comps : List String
deriving DecidableEq

/-- Embeds `PathBuf::join`: joining an absolute path replaces the receiver path. -/
def joinPath (root p : FsPath) : FsPath :=
  if p.absolute then p else ⟨root.absolute, root.comps ++ p.comps⟩

/-- Component-wise test that `pre` is an initial segment of `l`. -/
def compsStartWith : List String → List String → Bool
  | _, [] => true
  | [], _ :: _ => false
  | a :: as, b :: bs => a == b && compsStartWith as bs

/-- Embeds `p.startsWith q`: `q` is an ancestor of (or equal to) `p`. -/
def FsPath.startsWith (p q : FsPath) : Bool :=
  (p.absolute == q.absolute) && compsStartWith p.comps q.comps

/-- Replace the ancestor `src` of `p` by `dst` (used to move a directory
subtree by `fs::rename`). -/
def FsPath.rebase (p src dst : FsPath) : FsPath :=
  ⟨dst.absolute, dst.comps ++ p.comps.drop src.comps.length⟩

/-- All non-empty ancestors of `p`, `p` included (what `create_dir_all`
creates). -/
def FsPath.ancestors (p : FsPath) : List FsPath :=
  (List.range p.comps.length).map (fun i => ⟨p.absolute, p.comps.take (i + 1)⟩)

/-! ## Association lists (the embedding of `HashMap` with unique keys) -/

def alookup {κ α : Type} [DecidableEq κ] (k : κ) : List (κ × α) → Option α
  | [] => none
  | (k₁, v) :: rest => if k₁ = k then some v else alookup k rest

def ainsert {κ α : Type} [DecidableEq κ] (k : κ) (v : α) :
    List (κ × α) → List (κ × α)
  | [] => [(k, v)]
  | (k₁, v₁) :: rest =>
    if k₁ = k then (k, v) :: rest else (k₁, v₁) :: ainsert k v rest

def aremove {κ α : Type} [DecidableEq κ] (k : κ) : List (κ × α) → List (κ × α)
  | [] => []
  | (k₁, v₁) :: rest =>
    if k₁ = k then aremove k rest else (k₁, v₁) :: aremove k rest

theorem alookup_ainsert_self {κ α : Type} [DecidableEq κ] (k : κ) (v : α)
    (m : List (κ × α)) : alookup k (ainsert k v m) = some v := by
  induction m with
  | nil => simp [ainsert, alookup]
  | cons hd tl ih =>
    obtain ⟨k₁, v₁⟩ := hd
    by_cases h : k₁ = k <;> simp [ainsert, alookup, h, ih]

theorem alookup_aremove_self {κ α : Type} [DecidableEq κ] (k : κ)
    (m : List (κ × α)) : alookup k (aremove k m) = none := by
  induction m with
  | nil => simp [aremove, alookup]
  | cons hd tl ih =>
    obtain ⟨k₁, v₁⟩ := hd
    by_cases h : k₁ = k <;> simp [aremove, alookup, h, ih]

/-! ## The receiver's filesystem -/

/-- The destination filesystem: regular files with contents, and
directories. -/
structure Fs where
  files : List (FsPath × Bytes)
  dirs : List FsPath
deriving DecidableEq

def Fs.lookupFile (fs : Fs) (p : FsPath) : Option Bytes := alookup p fs.files

def Fs.isDir (fs : Fs) (p : FsPath) : Bool := fs.dirs.any (fun d => d == p)

def Fs.pathExists (fs : Fs) (p : FsPath) : Bool :=
  (fs.lookupFile p).isSome || fs.isDir p

/-- Embeds `File::create`: create or truncate the regular file at `p`. -/
def Fs.createFile (fs : Fs) (p : FsPath) : Fs :=
  { fs with files := ainsert p [] fs.files }

/-- Overwrite the contents at `p` (a flush of all bytes written so far). -/
def Fs.writeFile (fs : Fs) (p : FsPath) (contents : Bytes) : Fs :=
  { fs with files := ainsert p contents fs.files }

/-- Embeds `fs::remove_file` (unlink). -/
def Fs.unlink (fs : Fs) (p : FsPath) : Fs :=
  { fs with files := aremove p fs.files }

/-- Embeds `fs::remove_dir_all`: drop the directory and everything under it. -/
def Fs.removeDirAll (fs : Fs) (p : FsPath) : Fs :=
  { files := fs.files.filter (fun e => !(e.1.startsWith p)),
    dirs := fs.dirs.filter (fun d => !(d.startsWith p)) }

/-- Embeds `fs::create_dir_all`: create the directory and all its ancestors. -/
def Fs.mkDirAll (fs : Fs) (p : FsPath) : Fs :=
  { fs with
    dirs := p.ancestors.foldl
      (fun ds d => if ds.any (fun d₁ => d₁ == d) then ds else ds ++ [d]) fs.dirs }

/-- Embeds `fs::rename`: move a regular file or a directory subtree; fails when the
source does not exist. -/
def Fs.rename (fs : Fs) (src dst : FsPath) : Except String Fs :=
  match fs.lookupFile src with
  | some c => .ok { fs with files := ainsert dst c (aremove src fs.files) }
  | none =>
    if fs.isDir src then
      .ok { files := fs.files.map
              (fun e => if e.1.startsWith src then (e.1.rebase src dst, e.2) else e),
            dirs := fs.dirs.map
              (fun d => if d.startsWith src then d.rebase src dst else d) }
    else .error "rename failed: no such file or directory"

/-! ## Protocol types (`src/proto.rs`)

The `id : Uuid` field is omitted: every handler copies the request id into
the response unchanged, and no verified claim concerns ids. -/

inductive FileType
  | dir
  | file
  | symlink
deriving DecidableEq

inductive TKind
  | empty
  | contents
  | delta
  | signature
deriving DecidableEq

/-- Embeds `proto::Transfer`. -/
structure Transfer where
  kind : TKind
  data : Bytes
  shasum : Bytes
  file_size : Option Nat
  data_size : Option Nat
deriving DecidableEq

inductive ReqKind
  | check
  | delta
  | contents
  | remove
  | rename (new_path : FsPath)
deriving DecidableEq

/-- Embeds `proto::TransferRequest` (without the uuid). -/
structure TransferRequest where
  path : FsPath
  file_type : FileType
  kind : ReqKind
  transfer : Option Transfer
deriving DecidableEq

/-- Embeds `proto::TransferResponseKind`. -/
inductive RespKind
  | ok
  | different (signature : Bytes)
  | needContents
  | cantHandle (reason : String)
deriving DecidableEq

/-! ## The chunk store (`src/store.rs`) -/

/-- Embeds `store::FileEntry`: `hashed` is the byte stream fed to the running
hasher, which equals the bytes written through the entry's writer
(`FileEntry::poll_write` updates the hasher with exactly the accepted
bytes); `numBytes` is the byte counter. -/
structure FileEntry where
  shasum : Bytes
  hashed : Bytes
  numBytes : Nat
deriving DecidableEq

instance : Inhabited FileEntry := ⟨⟨[], [], 0⟩⟩

/-- Embeds `FileEntry::new` (after `File::create` truncated the on-disk file). -/
def FileEntry.new (shasum : Bytes) : FileEntry := ⟨shasum, [], 0⟩

/-- Embeds `store::DeltaEntry`. -/
structure DeltaEntry where
  shasum : Bytes
  delta : Bytes
deriving DecidableEq

/-- Embeds `store::Store`. -/
structure Store where
  files : List (FsPath × FileEntry)
  deltas : List (FsPath × DeltaEntry)
deriving DecidableEq

/-- Embeds `Store::push_file_chunk`. On a vacant entry, and again when the stored
`shasum` differs from the incoming one, a fresh `FileEntry` is created
(truncating the on-disk file); then the chunk is written (feeding the
hasher) and the byte counter updated. Returns the new total. -/
def Store.push_file_chunk (s : Store) (fs : Fs) (path : FsPath)
    (shasum : Bytes) (data : Bytes) : Nat × Store × Fs :=
  let e₀fs : FileEntry × Fs :=
    match alookup path s.files with
    | some e => (e, fs)
    | none => (FileEntry.new shasum, fs.createFile path)
  let e₁fs : FileEntry × Fs :=
    if e₀fs.1.shasum ≠ shasum then (FileEntry.new shasum, e₀fs.2.createFile path)
    else e₀fs
  let e₂ : FileEntry :=
    { e₁fs.1 with
      hashed := e₁fs.1.hashed ++ data
      numBytes := e₁fs.1.numBytes + data.length }
  (e₂.numBytes, { s with files := ainsert path e₂ s.files }, e₁fs.2)

/-- Embeds `Store::push_delta_chunk`. Faithful to the source: when the incoming
`shasum` differs from the stored one the buffer is cleared, but the stored
`shasum` field is NOT updated. Returns the buffer after extending it. -/
def Store.push_delta_chunk (s : Store) (path : FsPath) (shasum : Bytes)
    (data : Bytes) : Bytes × Store :=
  let e₀ : DeltaEntry := (alookup path s.deltas).getD ⟨shasum, []⟩
  let e₁ : DeltaEntry := if shasum ≠ e₀.shasum then { e₀ with delta := [] } else e₀
  let e₂ : DeltaEntry := { e₁ with delta := e₁.delta ++ data }
  (e₂.delta, { s with deltas := ainsert path e₂ s.deltas })

/-- Embeds `Store::remove_file`: flush the writer (the written bytes land on disk),
finalize the hasher and drop the entry; `none` when there was no entry. -/
def Store.remove_file (hash : Bytes → Bytes) (s : Store) (fs : Fs)
    (path : FsPath) : Option Bytes × Store × Fs :=
  match alookup path s.files with
  | some e =>
    (some (hash e.hashed), { s with files := aremove path s.files },
      fs.writeFile path e.hashed)
  | none => (none, s, fs)

/-- Embeds `Store::remove_delta`. -/
def Store.remove_delta (s : Store) (path : FsPath) : Store :=
  { s with deltas := aremove path s.deltas }

/-- The receiver's per-connection state: the chunk store plus the
destination filesystem. -/
structure RecvState where
  store : Store
  fs : Fs
deriving DecidableEq

/-! ## The receiver's request handlers (`src/bin/transfer-handler.rs`) -/

/-- Embeds `handle_check_dir`: ensure the path is a directory, replacing a non-dir
entry and creating missing ancestors. -/
def handle_check_dir (fs : Fs) (path : FsPath) : RespKind × Fs :=
  if fs.pathExists path then
    if !(fs.isDir path) then (.ok, (fs.unlink path).mkDirAll path)
    else (.ok, fs)
  else (.ok, fs.mkDirAll path)

/-- Embeds `handle_check_file`: absent file asks for contents; otherwise mmap and
hash; equal hash is Ok, different hash answers with the serialized
signature of the current contents. A path that exists but is not a regular
file makes the mmap fail, which surfaces as `CantHandle` (the
`From<io::Error>` conversion). -/
def handle_check_file (hash sigOf : Bytes → Bytes) (fs : Fs) (path : FsPath)
    (t : Transfer) : RespKind :=
  if !(fs.pathExists path) then .needContents
  else
    match fs.lookupFile path with
    | none => .cantHandle "mmap failed"
    | some content =>
      if hash content = t.shasum then .ok
      else .different (sigOf content)

/-- Embeds `handle_check`. -/
def handle_check (hash sigOf : Bytes → Bytes) (root : FsPath)
    (st : RecvState) (req : TransferRequest) : Except String RespKind × RecvState :=
  let path := joinPath root req.path
  match req.file_type with
  | .dir =>
    let r := handle_check_dir st.fs path
    (.ok r.1, { st with fs := r.2 })
  | .file =>
    match req.transfer with
    | none => (.error "missing transfer data on check file request", st)
    | some t => (.ok (handle_check_file hash sigOf st.fs path t), st)
  | .symlink => (.error "symlinks are not implemented", st)

/-- Embeds `handle_contents`: validate the request, push the chunk into the store;
when the byte counter reaches `file_size`, remove the entry (flushing) and
compare the finalized hash with the expected `shasum`, failing the request
on mismatch; otherwise reply Ok. -/
def handle_contents (hash : Bytes → Bytes) (root : FsPath) (st : RecvState)
    (req : TransferRequest) : Except String RespKind × RecvState :=
  if req.file_type ≠ .file then (.error "contents request for a non-file", st)
  else
    match req.transfer with
    | none => (.error "transfer data missing for contents request", st)
    | some t =>
      if t.kind ≠ .contents then
        (.error "transfer kind is not contents for contents request", st)
      else
        match t.file_size with
        | none => (.error "contents transfer does not have file_size", st)
        | some fileSize =>
          let path := joinPath root req.path
          let pr := st.store.push_file_chunk st.fs path t.shasum t.data
          let st₁ : RecvState := ⟨pr.2.1, pr.2.2⟩
          if pr.1 = fileSize then
            let rr := st₁.store.remove_file hash st₁.fs path
            let st₂ : RecvState := ⟨rr.2.1, rr.2.2⟩
            match rr.1 with
            | none => (.error "logic error: file not in store", st₂)
            | some sh =>
              if sh ≠ t.shasum then (.error "data integrity failed", st₂)
              else (.ok .ok, st₂)
          else (.ok .ok, st₁)

/-- Embeds `fast_rsync::apply_limited`: apply the delta to the base, failing when
the application fails or when the output would exceed `limit` bytes.
`applyDelta` is the unlimited application of the library. -/
def applyLimited (applyDelta : Bytes → Bytes → Option Bytes)
    (base delta : Bytes) (limit : Nat) : Except String Bytes :=
  match applyDelta base delta with
  | none => .error "delta apply failed"
  | some out =>
    if out.length > limit then .error "applied delta exceeds file_size"
    else .ok out

/-- Embeds `handle_delta`: validate, push the chunk into the delta buffer; while the
buffer is shorter than `data_size` reply Ok. On completion drop the delta
entry, mmap the current file, unlink it, create a fresh file and apply —
faithful to the source, which passes the final chunk's `transfer.data` (not
the accumulated buffer) to `apply_limited`. Hash match replies Ok, mismatch
replies NeedContents. -/
def handle_delta (hash : Bytes → Bytes)
    (applyDelta : Bytes → Bytes → Option Bytes) (root : FsPath)
    (st : RecvState) (req : TransferRequest) : Except String RespKind × RecvState :=
  if req.file_type ≠ .file then (.error "delta request for a non-file", st)
  else
    match req.transfer with
    | none => (.error "transfer data missing for contents request", st)
    | some t =>
      if t.kind ≠ .delta then
        (.error "transfer kind is not delta for delta request", st)
      else
        match t.file_size, t.data_size with
        | none, _ => (.error "delta transfer does not have file_size", st)
        | _, none => (.error "delta transfer does not have data_size", st)
        | some fileSize, some dataSize =>
          let path := joinPath root req.path
          let pr := st.store.push_delta_chunk path t.shasum t.data
          if pr.1.length ≠ dataSize then (.ok .ok, { st with store := pr.2 })
          else
            let store₂ := pr.2.remove_delta path
            match st.fs.lookupFile path with
            | none => (.error "mmap failed", ⟨store₂, st.fs⟩)
            | some base =>
              let fs₁ := (st.fs.unlink path).createFile path
              match applyLimited applyDelta base t.data fileSize with
              | .error e => (.error e, ⟨store₂, fs₁⟩)
              | .ok out =>
                let fs₂ := fs₁.writeFile path out
                if hash out = t.shasum then (.ok .ok, ⟨store₂, fs₂⟩)
                else (.ok .needContents, ⟨store₂, fs₂⟩)

/-- True when some filesystem entry lies strictly or non-strictly under `p`
other than `p` itself (what makes `remove_dir` fail). -/
def Fs.hasEntriesUnder (fs : Fs) (p : FsPath) : Bool :=
  fs.files.any (fun e => e.1.startsWith p) ||
    fs.dirs.any (fun d => d.startsWith p && d != p)

/-- Embeds `handle_remove`: `remove_dir` for a dir (fails unless it exists, is a
directory and is empty), `remove_file` otherwise (fails unless a regular
file exists there). -/
def handle_remove (root : FsPath) (fs : Fs) (req : TransferRequest) :
    Except String RespKind × Fs :=
  let path := joinPath root req.path
  match req.file_type with
  | .dir =>
    if fs.isDir path && !(fs.hasEntriesUnder path) then
      (.ok .ok, { fs with dirs := fs.dirs.filter (fun d => d != path) })
    else (.error "remove_dir failed", fs)
  | .file | .symlink =>
    match fs.lookupFile path with
    | some _ => (.ok .ok, fs.unlink path)
    | none => (.error "remove_file failed", fs)

/-- Embeds `handle_rename`: when the destination exists, remove it (recursively for
a directory) and rename; when it does not exist, do nothing. Reply Ok in
both cases. -/
def handle_rename (root : FsPath) (fs : Fs) (req : TransferRequest) :
    Except String RespKind × Fs :=
  let src := joinPath root req.path
  match req.kind with
  | .rename new_path =>
    let dst := joinPath root new_path
    if fs.pathExists dst then
      let fs₁ := if fs.isDir dst then fs.removeDirAll dst else fs.unlink dst
      match fs₁.rename src dst with
      | .ok fs₂ => (.ok .ok, fs₂)
      | .error e => (.error e, fs₁)
    else (.ok .ok, fs)
  | _ => (.error "unexpected request kind in rename", fs)

/-- Embeds `transfer_handler`: dispatch on the request kind; any handler error
becomes a `CantHandle` response. -/
def transfer_handler (hash sigOf : Bytes → Bytes)
    (applyDelta : Bytes → Bytes → Option Bytes) (root : FsPath)
    (st : RecvState) (req : TransferRequest) : RespKind × RecvState :=
  let r : Except String RespKind × RecvState :=
    match req.kind with
    | .check => handle_check hash sigOf root st req
    | .delta => handle_delta hash applyDelta root st req
    | .contents => handle_contents hash root st req
    | .remove =>
      let rr := handle_remove root st.fs req
      (rr.1, { st with fs := rr.2 })
    | .rename _ =>
      let rr := handle_rename root st.fs req
      (rr.1, { st with fs := rr.2 })
  match r.1 with
  | .ok k => (k, r.2)
  | .error e => (.cantHandle e, r.2)

/-! ## The sender (`src/bin/transfer.rs`) -/

/-- Embeds `FILE_CHUNK_SIZE`: 1 MiB. -/
def FILE_CHUNK_SIZE : Nat := 1024 * 1024

/-- Embeds `slice::chunks`: split into consecutive pieces of `n` elements, the last
possibly shorter. The source only calls this with `n = FILE_CHUNK_SIZE`;
`n = 0` (which panics in Rust) is mapped to `[]`. -/
def listChunks {α : Type} (n : Nat) (l : List α) : List (List α) :=
  if _ : n = 0 ∨ l.isEmpty then []
  else l.take n :: listChunks n (l.drop n)
termination_by l.length
decreasing_by
  rename_i h
  push_neg at h
  have hn : 0 < n := Nat.pos_of_ne_zero h.1
  have hl : 0 < l.length := by
    cases l with
    | nil => simp [List.isEmpty] at h
    | cons a as => simp
  simpa [List.length_drop] using Nat.sub_lt hl hn

theorem listChunks_nil {α : Type} (n : Nat) : listChunks n ([] : List α) = [] := by
  rw [listChunks]
  simp

theorem listChunks_of_ne {α : Type} {n : Nat} {l : List α} (hn : n ≠ 0)
    (hl : l ≠ []) : listChunks n l = l.take n :: listChunks n (l.drop n) := by
  rw [listChunks]
  simp [hn, hl]

/-- The single chunk of a short non-empty list. -/
theorem listChunks_short {α : Type} {n : Nat} {l : List α} (hn : n ≠ 0)
    (hl : l ≠ []) (hlen : l.length ≤ n) : listChunks n l = [l] := by
  rw [listChunks_of_ne hn hl, List.take_of_length_le hlen,
    List.drop_eq_nil_of_le hlen, listChunks_nil]

/-- The Check(File) request of `check_file` step 2. -/
def mkCheckReq (relpath : FsPath) (shasum : Bytes) : TransferRequest :=
  ⟨relpath, .file, .check, some ⟨.empty, [], shasum, none, none⟩⟩

/-- One Contents chunk request of `transfer_contents_with_mmap` (the source
sets both `file_size` and `data_size` to `mmap.len()`). -/
def mkContentsReq (relpath : FsPath) (shasum : Bytes) (fileSize : Nat)
    (c : Bytes) : TransferRequest :=
  ⟨relpath, .file, .contents, some ⟨.contents, c, shasum, some fileSize, some fileSize⟩⟩

/-- One Delta chunk request of `transfer_delta_with_mmap` (`file_size` is
`mmap.len()`, `data_size` is `delta.len()`). -/
def mkDeltaReq (relpath : FsPath) (shasum : Bytes) (fileSize deltaSize : Nat)
    (c : Bytes) : TransferRequest :=
  ⟨relpath, .file, .delta, some ⟨.delta, c, shasum, some fileSize, some deltaSize⟩⟩

/-- How the sender's per-file handling ends: cleanly, skipping the file with
a warning (the outer error plane), or fatally (the inner, service error
plane). -/
inductive SenderOutcome
  | ok
  | skip (msg : String)
  | fatal (msg : String)
deriving DecidableEq

/-- The environment: the response to the sender's `n`-th request of this
file's session. The sender is deterministic, so indexing responses by
position loses no generality over a stateful receiver. -/
abbrev Oracle := Nat → RespKind

/-- The chunk loop of `transfer_contents_with_mmap` (via `send_request`):
Ok continues, CantHandle aborts the file, anything else is a protocol
violation and fatal. Returns the emitted requests and the outcome. -/
def contentsLoop (oracle : Oracle) (relpath : FsPath) (shasum : Bytes)
    (fileSize : Nat) : Nat → List Bytes → List TransferRequest × SenderOutcome
  | _, [] => ([], .ok)
  | n, c :: rest =>
    let req := mkContentsReq relpath shasum fileSize c
    match oracle n with
    | .ok =>
      let r := contentsLoop oracle relpath shasum fileSize (n + 1) rest
      (req :: r.1, r.2)
    | .cantHandle reason => ([req], .skip ("handler failed: " ++ reason))
    | _ => ([req], .fatal "protocol violation")

/-- Embeds `transfer_contents_with_mmap`: chunk the captured mmap and stream the
chunks. `n` is the index of the next request in the session. -/
def transfer_contents_with_mmap (oracle : Oracle) (relpath : FsPath)
    (content : Bytes) (shasum : Bytes) (n : Nat) :
    List TransferRequest × SenderOutcome :=
  contentsLoop oracle relpath shasum content.length n
    (listChunks FILE_CHUNK_SIZE content)

/-- The chunk loop of `transfer_delta_with_mmap`: Ok continues, NeedContents
on the final chunk (`i + 1 = numChunks`) records the fallback and continues,
CantHandle aborts the file, anything else is a protocol violation. The
boolean is the `needs_contents` flag. -/
def deltaLoop (oracle : Oracle) (relpath : FsPath) (shasum : Bytes)
    (fileSize deltaSize numChunks : Nat) :
    Nat → Nat → List Bytes → List TransferRequest × SenderOutcome × Bool
  | _, _, [] => ([], .ok, false)
  | n, i, c :: rest =>
    let req := mkDeltaReq relpath shasum fileSize deltaSize c
    match oracle n with
    | .ok =>
      let r := deltaLoop oracle relpath shasum fileSize deltaSize numChunks
        (n + 1) (i + 1) rest
      (req :: r.1, r.2.1, r.2.2)
    | .needContents =>
      if i + 1 = numChunks then
        let r := deltaLoop oracle relpath shasum fileSize deltaSize numChunks
          (n + 1) (i + 1) rest
        (req :: r.1, r.2.1, true)
      else ([req], .fatal "protocol violation", false)
    | .cantHandle reason => ([req], .skip ("handler failed: " ++ reason), false)
    | .different _ => ([req], .fatal "protocol violation", false)

/-- Embeds `transfer_delta_with_mmap`: deserialize the signature and compute the
delta (`diffFn`; `none` models a deserialize/diff failure, which skips the
file), chunk it, stream the chunks, and on a final-chunk NeedContents fall
back to `transfer_contents_with_mmap` with the same mmap and shasum. -/
def transfer_delta_with_mmap (oracle : Oracle)
    (diffFn : Bytes → Bytes → Option Bytes) (relpath : FsPath)
    (content : Bytes) (shasum : Bytes) (signature : Bytes) (n : Nat) :
    List TransferRequest × SenderOutcome :=
  match diffFn signature content with
  | none => ([], .skip "diff failed")
  | some delta =>
    let chunks := listChunks FILE_CHUNK_SIZE delta
    let r := deltaLoop oracle relpath shasum content.length delta.length
      chunks.length n 0 chunks
    match r.2.1 with
    | .ok =>
      if r.2.2 then
        let r₂ := transfer_contents_with_mmap oracle relpath content shasum
          (n + r.1.length)
        (r.1 ++ r₂.1, r₂.2)
      else (r.1, .ok)
    | out => (r.1, out)

/-- Embeds `check_file`: mmap the file once (its bytes are `content`), hash it, and
run the check-and-transfer protocol. Every later step reuses the same
`content` and `hash content`. -/
def check_file (oracle : Oracle) (diffFn : Bytes → Bytes → Option Bytes)
    (hash : Bytes → Bytes) (relpath : FsPath) (content : Bytes) :
    List TransferRequest × SenderOutcome :=
  let shasum := hash content
  let req := mkCheckReq relpath shasum
  match oracle 0 with
  | .ok => ([req], .ok)
  | .different s =>
    let r := transfer_delta_with_mmap oracle diffFn relpath content shasum s 1
    (req :: r.1, r.2)
  | .needContents =>
    let r := transfer_contents_with_mmap oracle relpath content shasum 1
    (req :: r.1, r.2)
  | .cantHandle reason => ([req], .skip ("handler failed: " ++ reason))

/-! ## The sender's watcher event dispatch (`handle_fs_event`) -/

/-- The `notify` event kinds the dispatcher distinguishes. -/
inductive FsEventKind
  | createFolder
  | createFile
  | modifyData
  | modifyNameBoth
  | removeFolder
  | removeFile
  | other
deriving DecidableEq

/-- A watcher event: a kind and its path list. -/
structure FsEvent where
  kind : FsEventKind
  paths : List FsPath
deriving DecidableEq

/-- Which sender routine `handle_fs_event` invokes. -/
inductive SenderAction
  | checkDir (p : FsPath)
  | checkFile (p : FsPath)
  | transferContents (p : FsPath)
  | rename (src dst : FsPath)
  | removeDir (p : FsPath)
  | removeFile (p : FsPath)
  | skip
deriving DecidableEq

/-- Embeds `handle_fs_event`: classify a watcher event. `shouldSkip` is the ignore
filter, `isDir` is `Path::is_dir` on the live filesystem (the source
computes `from.is_dir()` before branching). An arm whose ignore guard fails
falls through to the final skip, as in the source `match`. -/
def handle_fs_event (shouldSkip isDir : FsPath → Bool) (ev : FsEvent) :
    SenderAction :=
  match ev.kind, ev.paths.head?, (ev.paths.drop 1).head? with
  | .createFolder, some path, _ =>
    if !(shouldSkip path) then .checkDir path else .skip
  | .createFile, some path, _ =>
    if !(shouldSkip path) then .transferContents path else .skip
  | .modifyData, some path, _ =>
    if !(shouldSkip path) then .checkFile path else .skip
  | .modifyNameBoth, some src, some dst =>
    if shouldSkip src && !(shouldSkip dst) then
      if isDir src then .checkDir dst else .checkFile dst
    else if !(shouldSkip dst) then .rename src dst
    else .skip
  | .removeFolder, some path, _ =>
    if !(shouldSkip path) then .removeDir path else .skip
  | .removeFile, some path, _ =>
    if !(shouldSkip path) then .removeFile path else .skip
  | _, _, _ => .skip

/-! ## Theorems about the claims -/

/-- C1: the claim says the completed delta applied against the mmapped base
is the concatenation of all Delta chunks, so a multi-chunk delta whose final
reply is Ok reconstructs the sender's file. In the code `handle_delta`
passes only the final chunk's `transfer.data` to `apply_limited`, not the
accumulated buffer. At the concrete two-chunk input below (base `[9]`,
chunks `[0]` then `[1]`, `data_size = 2`, `shasum` equal to the hash of the
full-delta application), the first reply is Ok, the destination file ends
as the application of `[1]` alone instead of `[0] ++ [1]`, and the final
reply is NeedContents instead of Ok. -/
theorem handle_delta_applies_only_final_chunk :
    let hash : Bytes → Bytes := fun b => b
    let ad : Bytes → Bytes → Option Bytes := fun _ d => some d
    let root : FsPath := ⟨true, ["dst"]⟩
    let p : FsPath := ⟨false, ["a"]⟩
    let target := joinPath root p
    let fs₀ : Fs := ⟨[(target, [9])], [root]⟩
    let st₀ : RecvState := ⟨⟨[], []⟩, fs₀⟩
    let mkReq : Bytes → TransferRequest := fun d =>
      ⟨p, .file, .delta, some ⟨.delta, d, [0, 1], some 2, some 2⟩⟩
    let r₁ := transfer_handler hash hash ad root st₀ (mkReq [0])
    let r₂ := transfer_handler hash hash ad root r₁.2 (mkReq [1])
    r₁.1 = .ok ∧
    r₂.1 = .needContents ∧
    r₂.2.fs.lookupFile target = some [1] ∧
    ad [9] ([0] ++ [1]) = some [0, 1] ∧
    hash [0, 1] = [0, 1] ∧
    r₂.2.fs.lookupFile target ≠ some [0, 1] := by
  decide

/-- C2: the claim says that after a shasum change the delta buffer equals
the concatenation of all chunks pushed since the change, so later pushes
with the new shasum accumulate. In `Store::push_delta_chunk` the buffer is
cleared on a shasum change but the stored `shasum` field is never updated,
so every subsequent push with the new shasum clears again: after pushing
`(h₁, [0])`, `(h₂, [10])`, `(h₂, [20])` the buffer is `[20]`, not
`[10] ++ [20]`, and the stored shasum is still `h₁ = [1]`. -/
theorem push_delta_chunk_reset_discards_accumulation :
    let s₀ : Store := ⟨[], []⟩
    let p : FsPath := ⟨false, ["a"]⟩
    let r₁ := s₀.push_delta_chunk p [1] [0]
    let r₂ := r₁.2.push_delta_chunk p [2] [10]
    let r₃ := r₂.2.push_delta_chunk p [2] [20]
    r₃.1 = [20] ∧
    r₃.1 ≠ [10] ++ [20] ∧
    (alookup p r₃.2.deltas).map DeltaEntry.shasum = some [1] := by
  decide

/-- C3 (counterexample): the claim says a request whose path is absolute is
rejected with CantHandle and no filesystem operation happens. At the
concrete input below, a Check(Dir) request for the absolute path
`/etc/x` — which does not lie under the root `/dst` — is answered Ok and
the directory is created at the escaped path. -/
theorem absolute_path_request_not_rejected :
    let root : FsPath := ⟨true, ["dst"]⟩
    let evil : FsPath := ⟨true, ["etc", "x"]⟩
    let st₀ : RecvState := ⟨⟨[], []⟩, ⟨[], [root]⟩⟩
    let req : TransferRequest := ⟨evil, .dir, .check, none⟩
    let r := transfer_handler (fun b => b) (fun b => b) (fun _ d => some d) root st₀ req
    joinPath root evil = evil ∧
    FsPath.startsWith evil root = false ∧
    r.1 = .ok ∧
    r.1 ≠ .cantHandle "path escapes root" ∧
    r.2.fs.isDir evil = true := by
  decide

/-- C3 (amended): the receiver performs no path validation. Each handler
joins the request path onto the root with `Path::join` semantics, so an
absolute request path replaces the root entirely; such a request is handled
at the escaped path rather than rejected: a Check(Dir) request for any
absolute, not-yet-existing path replies Ok and creates the directory (and
its ancestors) at that path. -/
theorem absolute_path_check_dir_escapes_root (hash sigOf : Bytes → Bytes)
    (applyDelta : Bytes → Bytes → Option Bytes) (root : FsPath)
    (st : RecvState) (req : TransferRequest)
    (habs : req.path.absolute = true) (hk : req.kind = .check)
    (hft : req.file_type = .dir) (hex : st.fs.pathExists req.path = false) :
    transfer_handler hash sigOf applyDelta root st req =
      (.ok, { st with fs := st.fs.mkDirAll req.path }) ∧
    joinPath root req.path = req.path := by
  have hjoin : joinPath root req.path = req.path := by
    simp [joinPath, habs]
  refine ⟨?_, hjoin⟩
  simp [transfer_handler, handle_check, handle_check_dir, hk, hft, hjoin, hex]

/-- Witness for `absolute_path_check_dir_escapes_root` at a concrete
input. -/
theorem absolute_path_check_dir_escape_witness :
    (⟨⟨true, ["etc", "x"]⟩, .dir, .check, none⟩ : TransferRequest).path.absolute = true ∧
    (⟨⟨true, ["etc", "x"]⟩, .dir, .check, none⟩ : TransferRequest).kind = .check ∧
    (⟨⟨true, ["etc", "x"]⟩, .dir, .check, none⟩ : TransferRequest).file_type = .dir ∧
    (⟨⟨[], []⟩, ⟨[], [⟨true, ["dst"]⟩]⟩⟩ : RecvState).fs.pathExists ⟨true, ["etc", "x"]⟩ = false ∧
    (transfer_handler (fun b => b) (fun b => b) (fun _ d => some d) ⟨true, ["dst"]⟩
        ⟨⟨[], []⟩, ⟨[], [⟨true, ["dst"]⟩]⟩⟩ ⟨⟨true, ["etc", "x"]⟩, .dir, .check, none⟩ =
      (.ok, { (⟨⟨[], []⟩, ⟨[], [⟨true, ["dst"]⟩]⟩⟩ : RecvState) with
              fs := (⟨[], [⟨true, ["dst"]⟩]⟩ : Fs).mkDirAll ⟨true, ["etc", "x"]⟩ }) ∧
      joinPath ⟨true, ["dst"]⟩ ⟨true, ["etc", "x"]⟩ = ⟨true, ["etc", "x"]⟩) :=
  ⟨by decide, by decide, by decide, by decide,
    absolute_path_check_dir_escapes_root (fun b => b) (fun b => b) (fun _ d => some d)
      ⟨true, ["dst"]⟩ ⟨⟨[], []⟩, ⟨[], [⟨true, ["dst"]⟩]⟩⟩
      ⟨⟨true, ["etc", "x"]⟩, .dir, .check, none⟩
      (by decide) (by decide) (by decide) (by decide)⟩

/-- C4 (counterexample): the claim says a completed delta whose application
would produce more than `file_size` bytes is answered NeedContents, not
CantHandle. At the concrete input below (a completed single-chunk delta
whose application yields 3 bytes against `file_size = 2`), the abort error
of `apply_limited` propagates through the handler's error path and the
reply is CantHandle, not NeedContents. -/
theorem oversize_delta_apply_replies_canthandle_example :
    let root : FsPath := ⟨true, ["dst"]⟩
    let p : FsPath := ⟨false, ["a"]⟩
    let fs₀ : Fs := ⟨[(joinPath root p, [9])], [root]⟩
    let st₀ : RecvState := ⟨⟨[], []⟩, fs₀⟩
    let req : TransferRequest :=
      ⟨p, .file, .delta, some ⟨.delta, [0, 1, 2], [7], some 2, some 3⟩⟩
    let r := transfer_handler (fun b => b) (fun b => b) (fun _ d => some d) root st₀ req
    r.1 = .cantHandle "applied delta exceeds file_size" ∧
    r.1 ≠ .needContents := by
  decide

/-- C4 (amended): when the application of a completed delta would produce
more than `file_size` bytes, the receiver aborts the application, but the
abort surfaces through the generic handler-error path as a CantHandle
reply, not as NeedContents; NeedContents is sent only when the application
succeeds within the limit and the resulting hash mismatches `shasum`. -/
theorem oversize_delta_apply_replies_canthandle (hash sigOf : Bytes → Bytes)
    (applyDelta : Bytes → Bytes → Option Bytes) (root : FsPath)
    (st : RecvState) (req : TransferRequest) (t : Transfer)
    (fsz dsz : Nat) (base out : Bytes)
    (hk : req.kind = .delta) (hft : req.file_type = .file)
    (htr : req.transfer = some t) (htk : t.kind = .delta)
    (hfs : t.file_size = some fsz) (hds : t.data_size = some dsz)
    (hcomplete :
      (st.store.push_delta_chunk (joinPath root req.path) t.shasum t.data).1.length = dsz)
    (hbase : st.fs.lookupFile (joinPath root req.path) = some base)
    (happ : applyDelta base t.data = some out)
    (hover : out.length > fsz) :
    (transfer_handler hash sigOf applyDelta root st req).1 =
      .cantHandle "applied delta exceeds file_size" := by
  simp [transfer_handler, handle_delta, hk, hft, htr, htk, hfs, hds,
    hcomplete, hbase, applyLimited, happ, hover]

/-- Witness for `oversize_delta_apply_replies_canthandle` at a concrete
input. -/
theorem oversize_delta_apply_replies_canthandle_witness :
    ((⟨⟨false, ["a"]⟩, .file, .delta,
        some ⟨.delta, [0, 1, 2], [7], some 2, some 3⟩⟩ : TransferRequest).kind = .delta) ∧
    ((⟨⟨[], []⟩, ⟨[(joinPath ⟨true, ["dst"]⟩ ⟨false, ["a"]⟩, [9])], [⟨true, ["dst"]⟩]⟩⟩ :
        RecvState).store.push_delta_chunk
        (joinPath ⟨true, ["dst"]⟩ ⟨false, ["a"]⟩) [7] [0, 1, 2]).1.length = 3 ∧
    (transfer_handler (fun b => b) (fun b => b) (fun _ d => some d) ⟨true, ["dst"]⟩
        ⟨⟨[], []⟩, ⟨[(joinPath ⟨true, ["dst"]⟩ ⟨false, ["a"]⟩, [9])], [⟨true, ["dst"]⟩]⟩⟩
        ⟨⟨false, ["a"]⟩, .file, .delta,
          some ⟨.delta, [0, 1, 2], [7], some 2, some 3⟩⟩).1 =
      .cantHandle "applied delta exceeds file_size" :=
  ⟨by decide, by decide,
    oversize_delta_apply_replies_canthandle (fun b => b) (fun b => b)
      (fun _ d => some d) ⟨true, ["dst"]⟩
      ⟨⟨[], []⟩, ⟨[(joinPath ⟨true, ["dst"]⟩ ⟨false, ["a"]⟩, [9])], [⟨true, ["dst"]⟩]⟩⟩
      ⟨⟨false, ["a"]⟩, .file, .delta, some ⟨.delta, [0, 1, 2], [7], some 2, some 3⟩⟩
      ⟨.delta, [0, 1, 2], [7], some 2, some 3⟩ 2 3 [9] [0, 1, 2]
      (by decide) (by decide) (by decide) (by decide) (by decide) (by decide)
      (by decide) (by decide) (by decide) (by decide)⟩

/-- C5: `handle_rename` performs the rename only inside the branch where the
destination exists. When `to` does not exist, the handler replies Ok and
returns the filesystem unchanged (so `from` still exists and `to` still
does not); when `to` exists, it is removed (recursively for a directory,
unlink otherwise) and then `rename(from, to)` is performed. -/
theorem handle_rename_dest_absent_noop (root : FsPath) (fs : Fs)
    (req : TransferRequest) (np : FsPath) (hk : req.kind = .rename np) :
    (fs.pathExists (joinPath root np) = false →
      handle_rename root fs req = (.ok .ok, fs)) ∧
    (fs.pathExists (joinPath root np) = true →
      handle_rename root fs req =
        (let fs₁ := if fs.isDir (joinPath root np) then
            fs.removeDirAll (joinPath root np)
          else fs.unlink (joinPath root np)
         match fs₁.rename (joinPath root req.path) (joinPath root np) with
         | .ok fs₂ => (Except.ok RespKind.ok, fs₂)
         | .error e => (Except.error e, fs₁))) := by
  constructor <;> intro h <;> simp [handle_rename, hk, h]

/-- Witness for `handle_rename_dest_absent_noop` at a concrete input:
renaming `a` to `b` in a filesystem where `b` does not exist leaves the
filesystem untouched and replies Ok. -/
theorem handle_rename_dest_absent_noop_witness :
    ((⟨⟨false, ["a"]⟩, .file, .rename ⟨false, ["b"]⟩, none⟩ : TransferRequest).kind =
      .rename ⟨false, ["b"]⟩) ∧
    ((⟨[(joinPath ⟨true, ["dst"]⟩ ⟨false, ["a"]⟩, [5])], [⟨true, ["dst"]⟩]⟩ : Fs).pathExists
        (joinPath ⟨true, ["dst"]⟩ ⟨false, ["b"]⟩) = false →
      handle_rename ⟨true, ["dst"]⟩
        ⟨[(joinPath ⟨true, ["dst"]⟩ ⟨false, ["a"]⟩, [5])], [⟨true, ["dst"]⟩]⟩
        ⟨⟨false, ["a"]⟩, .file, .rename ⟨false, ["b"]⟩, none⟩ =
        (.ok .ok, ⟨[(joinPath ⟨true, ["dst"]⟩ ⟨false, ["a"]⟩, [5])], [⟨true, ["dst"]⟩]⟩)) :=
  ⟨by decide,
    (handle_rename_dest_absent_noop ⟨true, ["dst"]⟩
      ⟨[(joinPath ⟨true, ["dst"]⟩ ⟨false, ["a"]⟩, [5])], [⟨true, ["dst"]⟩]⟩
      ⟨⟨false, ["a"]⟩, .file, .rename ⟨false, ["b"]⟩, none⟩ ⟨false, ["b"]⟩
      (by decide)).1⟩

/-- After `push_file_chunk` the store always holds an entry at the pushed
path. -/
theorem push_file_chunk_lookup (s : Store) (fs : Fs) (path : FsPath)
    (sh d : Bytes) :
    ∃ e : FileEntry,
      alookup path (s.push_file_chunk fs path sh d).2.1.files = some e :=
  ⟨_, alookup_ainsert_self _ _ _⟩

/-- C6: for a well-formed Contents request, the receiver replies Ok to every
chunk whose append leaves the accumulated byte count different from
`file_size`; on the terminal chunk (the one making the count equal
`file_size`) it replies Ok when the finalized hash matches `shasum` and
CantHandle when it does not — so an integrity failure can surface only on
the terminal chunk, never earlier. `e` is the store entry after the push
(always present by `push_file_chunk_lookup`). -/
theorem handle_contents_reply_discipline (hash sigOf : Bytes → Bytes)
    (applyDelta : Bytes → Bytes → Option Bytes) (root : FsPath)
    (st : RecvState) (req : TransferRequest) (t : Transfer) (fsz : Nat)
    (e : FileEntry)
    (hk : req.kind = .contents) (hft : req.file_type = .file)
    (htr : req.transfer = some t) (htk : t.kind = .contents)
    (hfs : t.file_size = some fsz)
    (hlook : alookup (joinPath root req.path)
      (st.store.push_file_chunk st.fs (joinPath root req.path) t.shasum
        t.data).2.1.files = some e) :
    ((st.store.push_file_chunk st.fs (joinPath root req.path) t.shasum
        t.data).1 ≠ fsz →
      (transfer_handler hash sigOf applyDelta root st req).1 = .ok) ∧
    ((st.store.push_file_chunk st.fs (joinPath root req.path) t.shasum
        t.data).1 = fsz →
      (hash e.hashed = t.shasum →
        (transfer_handler hash sigOf applyDelta root st req).1 = .ok) ∧
      (hash e.hashed ≠ t.shasum →
        (transfer_handler hash sigOf applyDelta root st req).1 =
          .cantHandle "data integrity failed")) := by
  constructor
  · intro hne
    simp [transfer_handler, handle_contents, hk, hft, htr, htk, hfs, hne]
  · intro heq
    constructor
    · intro hsh
      simp [transfer_handler, handle_contents, hk, hft, htr, htk, hfs, heq,
        Store.remove_file, hlook, hsh]
    · intro hsh
      simp [transfer_handler, handle_contents, hk, hft, htr, htk, hfs, heq,
        Store.remove_file, hlook, hsh]

/-- Witness for `handle_contents_reply_discipline` at a concrete input (a
single-chunk upload whose hash matches). -/
theorem handle_contents_reply_discipline_witness :
    (alookup (joinPath ⟨true, ["dst"]⟩ ⟨false, ["a"]⟩)
      ((⟨⟨[], []⟩, ⟨[], [⟨true, ["dst"]⟩]⟩⟩ : RecvState).store.push_file_chunk
        (⟨[], [⟨true, ["dst"]⟩]⟩ : Fs) (joinPath ⟨true, ["dst"]⟩ ⟨false, ["a"]⟩)
        [0] [0]).2.1.files = some ⟨[0], [0], 1⟩) ∧
    (((⟨⟨[], []⟩, ⟨[], [⟨true, ["dst"]⟩]⟩⟩ : RecvState).store.push_file_chunk
        (⟨[], [⟨true, ["dst"]⟩]⟩ : Fs) (joinPath ⟨true, ["dst"]⟩ ⟨false, ["a"]⟩)
        [0] [0]).1 ≠ 1 →
      (transfer_handler (fun b => b) (fun b => b) (fun _ d => some d)
        ⟨true, ["dst"]⟩ ⟨⟨[], []⟩, ⟨[], [⟨true, ["dst"]⟩]⟩⟩
        ⟨⟨false, ["a"]⟩, .file, .contents,
          some ⟨.contents, [0], [0], some 1, some 1⟩⟩).1 = .ok) ∧
    (((⟨⟨[], []⟩, ⟨[], [⟨true, ["dst"]⟩]⟩⟩ : RecvState).store.push_file_chunk
        (⟨[], [⟨true, ["dst"]⟩]⟩ : Fs) (joinPath ⟨true, ["dst"]⟩ ⟨false, ["a"]⟩)
        [0] [0]).1 = 1 →
      ((fun (b : Bytes) => b) ([0] : Bytes) = [0] →
        (transfer_handler (fun b => b) (fun b => b) (fun _ d => some d)
          ⟨true, ["dst"]⟩ ⟨⟨[], []⟩, ⟨[], [⟨true, ["dst"]⟩]⟩⟩
          ⟨⟨false, ["a"]⟩, .file, .contents,
            some ⟨.contents, [0], [0], some 1, some 1⟩⟩).1 = .ok) ∧
      ((fun (b : Bytes) => b) ([0] : Bytes) ≠ [0] →
        (transfer_handler (fun b => b) (fun b => b) (fun _ d => some d)
          ⟨true, ["dst"]⟩ ⟨⟨[], []⟩, ⟨[], [⟨true, ["dst"]⟩]⟩⟩
          ⟨⟨false, ["a"]⟩, .file, .contents,
            some ⟨.contents, [0], [0], some 1, some 1⟩⟩).1 =
          .cantHandle "data integrity failed")) :=
  ⟨by decide,
    handle_contents_reply_discipline (fun b => b) (fun b => b) (fun _ d => some d)
      ⟨true, ["dst"]⟩ ⟨⟨[], []⟩, ⟨[], [⟨true, ["dst"]⟩]⟩⟩
      ⟨⟨false, ["a"]⟩, .file, .contents, some ⟨.contents, [0], [0], some 1, some 1⟩⟩
      ⟨.contents, [0], [0], some 1, some 1⟩ 1 ⟨[0], [0], 1⟩
      (by decide) (by decide) (by decide) (by decide) (by decide) (by decide)⟩

/-- C10: on the terminal Contents chunk, when the finalized hash differs
from `shasum`, the receiver replies CantHandle but the destination file is
not deleted or rolled back: the mismatched bytes (everything pushed since
the entry was created) are fully written and flushed at the destination
path, and the chunk-store entry for the path is gone. -/
theorem contents_mismatch_keeps_file_drops_entry (hash sigOf : Bytes → Bytes)
    (applyDelta : Bytes → Bytes → Option Bytes) (root : FsPath)
    (st : RecvState) (req : TransferRequest) (t : Transfer) (fsz : Nat)
    (e : FileEntry)
    (hk : req.kind = .contents) (hft : req.file_type = .file)
    (htr : req.transfer = some t) (htk : t.kind = .contents)
    (hfs : t.file_size = some fsz)
    (hlook : alookup (joinPath root req.path)
      (st.store.push_file_chunk st.fs (joinPath root req.path) t.shasum
        t.data).2.1.files = some e)
    (hterm : (st.store.push_file_chunk st.fs (joinPath root req.path)
      t.shasum t.data).1 = fsz)
    (hmm : hash e.hashed ≠ t.shasum) :
    (transfer_handler hash sigOf applyDelta root st req).1 =
      .cantHandle "data integrity failed" ∧
    alookup (joinPath root req.path)
      (transfer_handler hash sigOf applyDelta root st req).2.store.files = none ∧
    (transfer_handler hash sigOf applyDelta root st req).2.fs.lookupFile
      (joinPath root req.path) = some e.hashed := by
  refine ⟨?_, ?_, ?_⟩ <;>
    simp [transfer_handler, handle_contents, hk, hft, htr, htk, hfs, hterm,
      Store.remove_file, hlook, hmm, Fs.lookupFile, Fs.writeFile,
      alookup_ainsert_self, alookup_aremove_self]

/-- Witness for `contents_mismatch_keeps_file_drops_entry` at a concrete
input (a single-chunk upload whose hash does not match). -/
theorem contents_mismatch_keeps_file_drops_entry_witness :
    ((⟨⟨[], []⟩, ⟨[], [⟨true, ["dst"]⟩]⟩⟩ : RecvState).store.push_file_chunk
        (⟨[], [⟨true, ["dst"]⟩]⟩ : Fs) (joinPath ⟨true, ["dst"]⟩ ⟨false, ["a"]⟩)
        [9] [0]).1 = 1 ∧
    ((transfer_handler (fun b => b) (fun b => b) (fun _ d => some d)
        ⟨true, ["dst"]⟩ ⟨⟨[], []⟩, ⟨[], [⟨true, ["dst"]⟩]⟩⟩
        ⟨⟨false, ["a"]⟩, .file, .contents,
          some ⟨.contents, [0], [9], some 1, some 1⟩⟩).1 =
      .cantHandle "data integrity failed" ∧
    alookup (joinPath ⟨true, ["dst"]⟩ ⟨false, ["a"]⟩)
      (transfer_handler (fun b => b) (fun b => b) (fun _ d => some d)
        ⟨true, ["dst"]⟩ ⟨⟨[], []⟩, ⟨[], [⟨true, ["dst"]⟩]⟩⟩
        ⟨⟨false, ["a"]⟩, .file, .contents,
          some ⟨.contents, [0], [9], some 1, some 1⟩⟩).2.store.files = none ∧
    (transfer_handler (fun b => b) (fun b => b) (fun _ d => some d)
        ⟨true, ["dst"]⟩ ⟨⟨[], []⟩, ⟨[], [⟨true, ["dst"]⟩]⟩⟩
        ⟨⟨false, ["a"]⟩, .file, .contents,
          some ⟨.contents, [0], [9], some 1, some 1⟩⟩).2.fs.lookupFile
      (joinPath ⟨true, ["dst"]⟩ ⟨false, ["a"]⟩) =
      some (⟨[9], [0], 1⟩ : FileEntry).hashed) :=
  ⟨by decide,
    contents_mismatch_keeps_file_drops_entry (fun b => b) (fun b => b)
      (fun _ d => some d) ⟨true, ["dst"]⟩ ⟨⟨[], []⟩, ⟨[], [⟨true, ["dst"]⟩]⟩⟩
      ⟨⟨false, ["a"]⟩, .file, .contents, some ⟨.contents, [0], [9], some 1, some 1⟩⟩
      ⟨.contents, [0], [9], some 1, some 1⟩ 1 ⟨[9], [0], 1⟩
      (by decide) (by decide) (by decide) (by decide) (by decide) (by decide)
      (by decide) (by decide)⟩

/-- C8: a Modify(Name, Both) watcher event whose old path is ignored and
whose new path is not is treated as a create according to the renamed
entry's type — `checkDir` on the new path for a directory, the file
check-and-transfer routine (`checkFile`) on the new path for a file — and
never as a Rename request. -/
theorem rename_from_ignored_is_create (shouldSkip isDir : FsPath → Bool)
    (src dst : FsPath) (rest : List FsPath)
    (hsrc : shouldSkip src = true) (hdst : shouldSkip dst = false) :
    handle_fs_event shouldSkip isDir ⟨.modifyNameBoth, src :: dst :: rest⟩ =
      (if isDir src then .checkDir dst else .checkFile dst) ∧
    ∀ a b, handle_fs_event shouldSkip isDir ⟨.modifyNameBoth, src :: dst :: rest⟩ ≠
      .rename a b := by
  have h : handle_fs_event shouldSkip isDir ⟨.modifyNameBoth, src :: dst :: rest⟩ =
      (if isDir src then .checkDir dst else .checkFile dst) := by
    simp [handle_fs_event, hsrc, hdst]
  refine ⟨h, fun a b => ?_⟩
  rw [h]
  by_cases hd : isDir src <;> simp [hd]

/-- Witness for `rename_from_ignored_is_create` at a concrete input: the
old path `.tmp/foo` is ignored, the new path `foo` is not, and the entry is
a file. -/
theorem rename_from_ignored_is_create_witness :
    ((fun p : FsPath => decide (p.comps.head? = some ".tmp")) ⟨false, [".tmp", "foo"]⟩ = true) ∧
    ((fun p : FsPath => decide (p.comps.head? = some ".tmp")) ⟨false, ["foo"]⟩ = false) ∧
    (handle_fs_event (fun p : FsPath => decide (p.comps.head? = some ".tmp"))
        (fun _ => false)
        ⟨.modifyNameBoth, [⟨false, [".tmp", "foo"]⟩, ⟨false, ["foo"]⟩]⟩ =
      (if (fun _ : FsPath => false) ⟨false, [".tmp", "foo"]⟩ then
        .checkDir ⟨false, ["foo"]⟩
      else .checkFile ⟨false, ["foo"]⟩) ∧
    ∀ a b, handle_fs_event (fun p : FsPath => decide (p.comps.head? = some ".tmp"))
        (fun _ => false)
        ⟨.modifyNameBoth, [⟨false, [".tmp", "foo"]⟩, ⟨false, ["foo"]⟩]⟩ ≠
      .rename a b) :=
  ⟨by decide, by decide,
    rename_from_ignored_is_create
      (fun p : FsPath => decide (p.comps.head? = some ".tmp")) (fun _ => false)
      ⟨false, [".tmp", "foo"]⟩ ⟨false, ["foo"]⟩ []
      (by decide) (by decide)⟩

/-- C9: for a zero-length source file, `transfer_contents_with_mmap`
iterates over the chunks of an empty memory map and so emits no Contents
request; after a Check answered NeedContents, the whole session for the
file is the single Check request (the destination file is never created or
written, since only Contents requests create files). -/
theorem empty_file_sync_sends_only_check (oracle : Oracle)
    (diffFn : Bytes → Bytes → Option Bytes) (hash : Bytes → Bytes)
    (relpath : FsPath) (h₀ : oracle 0 = .needContents) :
    check_file oracle diffFn hash relpath [] =
      ([mkCheckReq relpath (hash [])], .ok) ∧
    ∀ r ∈ (check_file oracle diffFn hash relpath []).1, r.kind ≠ .contents := by
  have h : check_file oracle diffFn hash relpath [] =
      ([mkCheckReq relpath (hash [])], .ok) := by
    simp [check_file, h₀, transfer_contents_with_mmap, listChunks_nil,
      contentsLoop]
  refine ⟨h, fun r hr => ?_⟩
  rw [h] at hr
  simp at hr
  subst hr
  simp [mkCheckReq]

/-- Witness for `empty_file_sync_sends_only_check` at a concrete input. -/
theorem empty_file_sync_sends_only_check_witness :
    ((fun _ : Nat => RespKind.needContents) 0 = .needContents) ∧
    (check_file (fun _ => .needContents) (fun _ _ => none) (fun b => b)
        ⟨false, ["a"]⟩ [] =
      ([mkCheckReq ⟨false, ["a"]⟩ ((fun b : Bytes => b) [])], .ok) ∧
    ∀ r ∈ (check_file (fun _ => .needContents) (fun _ _ => none) (fun b => b)
        ⟨false, ["a"]⟩ []).1, r.kind ≠ .contents) :=
  ⟨rfl,
    empty_file_sync_sends_only_check (fun _ => .needContents) (fun _ _ => none)
      (fun b => b) ⟨false, ["a"]⟩ rfl⟩

/-- Every request emitted by the Contents chunk loop is a `mkContentsReq`
for one of the chunks it was given. -/
theorem contentsLoop_mem (oracle : Oracle) (relpath : FsPath) (shasum : Bytes)
    (fileSize : Nat) :
    ∀ (cs : List Bytes) (n : Nat) (r : TransferRequest),
      r ∈ (contentsLoop oracle relpath shasum fileSize n cs).1 →
      ∃ c ∈ cs, r = mkContentsReq relpath shasum fileSize c := by
  intro cs
  induction cs with
  | nil =>
    intro n r hr
    simp [contentsLoop] at hr
  | cons c rest ih =>
    intro n r hr
    simp only [contentsLoop] at hr
    cases hor : oracle n with
    | ok =>
      rw [hor] at hr
      simp only [List.mem_cons] at hr
      rcases hr with hr | hr
      · exact ⟨c, by simp, hr⟩
      · obtain ⟨c₁, hc₁, hrc⟩ := ih (n + 1) r hr
        exact ⟨c₁, by simp [hc₁], hrc⟩
    | different s =>
      rw [hor] at hr
      simp only [List.mem_singleton] at hr
      exact ⟨c, by simp, hr⟩
    | needContents =>
      rw [hor] at hr
      simp only [List.mem_singleton] at hr
      exact ⟨c, by simp, hr⟩
    | cantHandle reason =>
      rw [hor] at hr
      simp only [List.mem_singleton] at hr
      exact ⟨c, by simp, hr⟩

/-- Every request emitted by the Delta chunk loop is a `mkDeltaReq` for one
of the chunks it was given. -/
theorem deltaLoop_mem (oracle : Oracle) (relpath : FsPath) (shasum : Bytes)
    (fileSize deltaSize numChunks : Nat) :
    ∀ (cs : List Bytes) (n i : Nat) (r : TransferRequest),
      r ∈ (deltaLoop oracle relpath shasum fileSize deltaSize numChunks n i cs).1 →
      ∃ c ∈ cs, r = mkDeltaReq relpath shasum fileSize deltaSize c := by
  intro cs
  induction cs with
  | nil =>
    intro n i r hr
    simp [deltaLoop] at hr
  | cons c rest ih =>
    intro n i r hr
    simp only [deltaLoop] at hr
    cases hor : oracle n with
    | ok =>
      rw [hor] at hr
      simp only [List.mem_cons] at hr
      rcases hr with hr | hr
      · exact ⟨c, by simp, hr⟩
      · obtain ⟨c₁, hc₁, hrc⟩ := ih (n + 1) (i + 1) r hr
        exact ⟨c₁, by simp [hc₁], hrc⟩
    | different s =>
      rw [hor] at hr
      simp only [List.mem_singleton] at hr
      exact ⟨c, by simp, hr⟩
    | needContents =>
      rw [hor] at hr
      by_cases hlast : i + 1 = numChunks
      · rw [if_pos hlast] at hr
        simp only [List.mem_cons] at hr
        rcases hr with hr | hr
        · exact ⟨c, by simp, hr⟩
        · obtain ⟨c₁, hc₁, hrc⟩ := ih (n + 1) (i + 1) r hr
          exact ⟨c₁, by simp [hc₁], hrc⟩
      · rw [if_neg hlast] at hr
        simp only [List.mem_singleton] at hr
        exact ⟨c, by simp, hr⟩
    | cantHandle reason =>
      rw [hor] at hr
      simp only [List.mem_singleton] at hr
      exact ⟨c, by simp, hr⟩

/-- The property claimed of every request `check_file` emits: it names the
file's relative path, carries the shasum captured at step 1, and its data
is a chunk either of the captured mmap itself (Contents) or of a delta
computed from the captured mmap (Delta). -/
def CapturedFrom (diffFn : Bytes → Bytes → Option Bytes) (relpath : FsPath)
    (content : Bytes) (shasum : Bytes) (r : TransferRequest) : Prop :=
  r.path = relpath ∧
  ∃ t, r.transfer = some t ∧ t.shasum = shasum ∧
    (r.kind = .contents → t.data ∈ listChunks FILE_CHUNK_SIZE content) ∧
    (r.kind = .delta →
      ∃ s d, diffFn s content = some d ∧ t.data ∈ listChunks FILE_CHUNK_SIZE d)

/-- Unfolding of `transfer_contents_with_mmap` membership. -/
theorem transfer_contents_mem (oracle : Oracle) (relpath : FsPath)
    (content shasum : Bytes) (n : Nat) (r : TransferRequest)
    (hr : r ∈ (transfer_contents_with_mmap oracle relpath content shasum n).1) :
    ∃ c ∈ listChunks FILE_CHUNK_SIZE content,
      r = mkContentsReq relpath shasum content.length c :=
  contentsLoop_mem oracle relpath shasum content.length _ n r hr

/-- C7: every request `check_file` emits for one file — the Check, every
Delta chunk, and every Contents chunk, including the Contents chunks sent
after a NeedContents fallback from the delta path — carries the shasum
captured before the Check was sent and is built from the mmap captured at
the same moment (its data is a chunk of that mmap or of a delta computed
from it). -/
theorem check_file_single_capture (oracle : Oracle)
    (diffFn : Bytes → Bytes → Option Bytes) (hash : Bytes → Bytes)
    (relpath : FsPath) (content : Bytes) (r : TransferRequest)
    (hr : r ∈ (check_file oracle diffFn hash relpath content).1) :
    CapturedFrom diffFn relpath content (hash content) r := by
  have hcheck : CapturedFrom diffFn relpath content (hash content)
      (mkCheckReq relpath (hash content)) := by
    refine ⟨rfl, ⟨.empty, [], hash content, none, none⟩, rfl, rfl, ?_, ?_⟩ <;>
      simp [mkCheckReq]
  have hcont : ∀ c ∈ listChunks FILE_CHUNK_SIZE content,
      CapturedFrom diffFn relpath content (hash content)
        (mkContentsReq relpath (hash content) content.length c) := by
    intro c hc
    refine ⟨rfl, ⟨.contents, c, hash content, some content.length,
      some content.length⟩, rfl, rfl, ?_, ?_⟩ <;> simp [mkContentsReq, hc]
  have hdelta : ∀ s d, diffFn s content = some d →
      ∀ c ∈ listChunks FILE_CHUNK_SIZE d,
      CapturedFrom diffFn relpath content (hash content)
        (mkDeltaReq relpath (hash content) content.length d.length c) := by
    intro s d hd c hc
    refine ⟨rfl, ⟨.delta, c, hash content, some content.length,
      some d.length⟩, rfl, rfl, ?_, ?_⟩
    · simp [mkDeltaReq]
    · intro _
      exact ⟨s, d, hd, hc⟩
  simp only [check_file] at hr
  cases h₀ : oracle 0 with
  | ok =>
    rw [h₀] at hr
    simp only [List.mem_singleton] at hr
    subst hr
    exact hcheck
  | cantHandle reason =>
    rw [h₀] at hr
    simp only [List.mem_singleton] at hr
    subst hr
    exact hcheck
  | needContents =>
    rw [h₀] at hr
    simp only [List.mem_cons] at hr
    rcases hr with hr | hr
    · subst hr
      exact hcheck
    · obtain ⟨c, hc, hrc⟩ := transfer_contents_mem oracle relpath content
        (hash content) 1 r hr
      subst hrc
      exact hcont c hc
  | different s =>
    rw [h₀] at hr
    simp only [List.mem_cons] at hr
    rcases hr with hr | hr
    · subst hr
      exact hcheck
    · simp only [transfer_delta_with_mmap] at hr
      split at hr
      · simp at hr
      · rename_i delta hd
        have hdl : ∀ r₁ ∈ (deltaLoop oracle relpath (hash content)
            content.length delta.length
            (listChunks FILE_CHUNK_SIZE delta).length 1 0
            (listChunks FILE_CHUNK_SIZE delta)).1,
            CapturedFrom diffFn relpath content (hash content) r₁ := by
          intro r₁ hr₁
          obtain ⟨c, hc, hrc⟩ := deltaLoop_mem oracle relpath (hash content)
            content.length delta.length (listChunks FILE_CHUNK_SIZE delta).length
            (listChunks FILE_CHUNK_SIZE delta) 1 0 r₁ hr₁
          subst hrc
          exact hdelta s delta hd c hc
        split at hr
        · split at hr
          · simp only [List.mem_append] at hr
            rcases hr with hr | hr
            · exact hdl r hr
            · obtain ⟨c, hc, hrc⟩ := transfer_contents_mem oracle relpath
                content (hash content) _ r hr
              subst hrc
              exact hcont c hc
          · exact hdl r hr
        · exact hdl r hr

/-- Witness for `check_file_single_capture` at a concrete input: the Check
request of a session answered Ok. -/
theorem check_file_single_capture_witness :
    (mkCheckReq ⟨false, ["a"]⟩ ((fun b : Bytes => b) [0]) ∈
      (check_file (fun _ => .ok) (fun _ _ => none) (fun b => b)
        ⟨false, ["a"]⟩ [0]).1) ∧
    CapturedFrom (fun _ _ => none) ⟨false, ["a"]⟩ [0]
      ((fun b : Bytes => b) [0]) (mkCheckReq ⟨false, ["a"]⟩ ((fun b : Bytes => b) [0])) :=
  ⟨by simp [check_file, mkCheckReq],
    check_file_single_capture (fun _ => .ok) (fun _ _ => none) (fun b => b)
      ⟨false, ["a"]⟩ [0] (mkCheckReq ⟨false, ["a"]⟩ ((fun b : Bytes => b) [0]))
      (by simp [check_file, mkCheckReq])⟩
